import Mathlib

/-!
Shallow embedding of the TaskFlow service worker (src/sw.js): the cache
store, the lifecycle handlers (install, activate sweep), the fetch routing
policy, the client message handlers and the periodic task reminder pass.
Fetch is modelled as a function from URL to an optional response: none is a
rejected fetch, some r a resolved one.
-/

namespace SW

/-- Response snapshot captured at insertion time: HTTP status and body. -/
structure Response where
  status : Nat
  body : String
  deriving DecidableEq

/-- Task record carried inside the CACHE_TASK_DATA snapshot. The JS field
dueDate is a nullable date string parsed with new Date; the embedding
carries the parsed instant in milliseconds since the Unix epoch, with none
standing for null. -/
structure Task where
  id : Nat
  text : String
  dueDate : Option Int
  completed : Bool
  deriving DecidableEq

/-- Value stored in a cache: either a response snapshot (written by the
fetch routing paths) or the structured task snapshot that the JS code keeps
JSON-serialized inside a Response body under the /tasks-data key and reads
back with response.json(); the embedding stores the structured value
directly, treating the serialization round trip as the identity. -/
inductive StoredValue where
  | resp (r : Response)
  | tasks (groups : List (String × List Task))
  deriving DecidableEq

/-- One named cache: association list from request identity (URL) to the
stored value, most recent write first. -/
abbrev Cache := List (String × StoredValue)

/-- cache.match on a single cache: lookup by request identity. -/
def Cache.find (c : Cache) (k : String) : Option StoredValue :=
  List.lookup k c

/-- cache.put: replaces the entry for the key wholesale (single-key
overwrite by request identity). -/
def Cache.put (c : Cache) (k : String) (v : StoredValue) : Cache :=
  (k, v) :: c.filter (fun p => p.1 != k)

/-- The CacheStorage: named caches in creation order. -/
abbrev CacheStore := List (String × Cache)

/-- Cache named nm in the store (empty when absent). -/
def CacheStore.findCache (s : CacheStore) (nm : String) : Cache :=
  (List.lookup nm s).getD []

/-- caches.open: the store with the named cache present, created empty at
the end when absent. -/
def CacheStore.openCache (s : CacheStore) (nm : String) : CacheStore :=
  if (List.lookup nm s).isSome then s else s ++ [(nm, [])]

/-- Write one entry into the named cache (no change when the cache is
absent; callers open the cache first). -/
def CacheStore.putIn (s : CacheStore) (nm k : String) (v : StoredValue) : CacheStore :=
  s.map (fun g => if g.1 = nm then (g.1, Cache.put g.2 k v) else g)

/-- caches.match: first hit over the caches in creation order. -/
def cachesMatch (s : CacheStore) (k : String) : Option StoredValue :=
  match s with
  | [] => none
  | (_, c) :: rest =>
    match Cache.find c k with
    | some v => some v
    | none => cachesMatch rest k

/-- Names of the caches present in the store. -/
def cacheNames (s : CacheStore) : List String :=
  s.map Prod.fst

/-- Current SHELL generation name (src/sw.js line 2). -/
def CACHE_NAME : String := "taskflow-v1.0.0"

/-- Current DATA generation name (src/sw.js line 3). -/
def DATA_CACHE_NAME : String := "taskflow-data-v1.0.0"

/-- Fixed shell asset list (src/sw.js lines 6 to 14). -/
def FILES_TO_CACHE : List String :=
  ["/", "/index.html", "/static/js/bundle.js", "/static/css/main.css",
   "/manifest.json", "/favicon.ico"]

/-- Activate listener sweep (src/sw.js lines 38 to 47): every cache whose
name is neither CACHE_NAME nor DATA_CACHE_NAME is deleted; the others are
kept. -/
def activateSweep (s : CacheStore) : CacheStore :=
  s.filter (fun g => g.1 == CACHE_NAME || g.1 == DATA_CACHE_NAME)

/-- Lookup distributes over append when the key misses the first part. -/
theorem lookup_append_of_none {α β : Type} [BEq α] (a : α) (l₁ l₂ : List (α × β))
    (h : List.lookup a l₁ = none) : List.lookup a (l₁ ++ l₂) = List.lookup a l₂ := by
  induction l₁ with
  | nil => rfl
  | cons p t ih =>
    obtain ⟨k, v⟩ := p
    cases hak : a == k with
    | true => simp [List.lookup, hak] at h
    | false =>
      simp only [List.lookup, hak] at h
      simpa [List.lookup, hak] using ih h

/-- Lookup over an appended list keeps a hit from the first part. -/
theorem lookup_append_of_some {α β : Type} [BEq α] (a : α) (l₁ l₂ : List (α × β)) (b : β)
    (h : List.lookup a l₁ = some b) : List.lookup a (l₁ ++ l₂) = some b := by
  induction l₁ with
  | nil => simp [List.lookup] at h
  | cons p t ih =>
    obtain ⟨k, v⟩ := p
    cases hak : a == k with
    | true => simpa [List.lookup, hak] using h
    | false =>
      simp only [List.lookup, hak] at h
      simpa [List.lookup, hak] using ih h

/-- Lookup of a key that is mapped to some value finds a member pair. -/
theorem mem_of_lookup_eq_some {α β : Type} [BEq α] [LawfulBEq α] {a : α}
    {l : List (α × β)} {b : β} (h : List.lookup a l = some b) : (a, b) ∈ l := by
  induction l with
  | nil => simp [List.lookup] at h
  | cons p t ih =>
    obtain ⟨k, v⟩ := p
    by_cases hk : a = k
    · subst hk
      simp only [List.lookup, beq_self_eq_true] at h
      obtain rfl : v = b := by injection h
      exact List.mem_cons_self _ _
    · have hb : (a == k) = false := beq_eq_false_iff_ne.mpr hk
      simp only [List.lookup, hb] at h
      exact List.mem_cons_of_mem _ (ih h)

/-- Opening a cache makes its name map to the cache that findCache reports
for the original store. -/
theorem lookup_openCache_self (s : CacheStore) (nm : String) :
    List.lookup nm (CacheStore.openCache s nm) = some (CacheStore.findCache s nm) := by
  unfold CacheStore.openCache CacheStore.findCache
  cases h : List.lookup nm s with
  | some c => simp [h]
  | none => simp [h, lookup_append_of_none nm s _ h, List.lookup]

/-- Opening a cache does not change what findCache reports for that name. -/
theorem findCache_openCache (s : CacheStore) (nm : String) :
    CacheStore.findCache (CacheStore.openCache s nm) nm = CacheStore.findCache s nm := by
  simp [CacheStore.findCache, lookup_openCache_self s nm]

/-- Opening a cache leaves every other name untouched. -/
theorem lookup_openCache_other (s : CacheStore) (nm nm' : String) (h : nm' ≠ nm) :
    List.lookup nm' (CacheStore.openCache s nm) = List.lookup nm' s := by
  unfold CacheStore.openCache
  by_cases hp : (List.lookup nm s).isSome = true
  · rw [if_pos hp]
  · rw [if_neg hp]
    cases hs : List.lookup nm' s with
    | some c => rw [lookup_append_of_some nm' s _ c hs]
    | none =>
      rw [lookup_append_of_none nm' s _ hs]
      simp [List.lookup, beq_eq_false_iff_ne.mpr h]

/-- Lookup on a cons as an if on the key comparison. -/
theorem lookup_cons {α β : Type} [BEq α] (a k : α) (v : β) (t : List (α × β)) :
    List.lookup a ((k, v) :: t) = if a == k then some v else List.lookup a t := by
  cases hak : a == k with
  | true => simp [List.lookup, hak]
  | false => simp [List.lookup, hak]

/-- putIn unfolds on a cons cell. -/
theorem putIn_cons (n : String) (c : Cache) (t : CacheStore) (nm k : String)
    (v : StoredValue) :
    CacheStore.putIn ((n, c) :: t) nm k v =
      (if n = nm then (n, Cache.put c k v) else (n, c)) :: CacheStore.putIn t nm k v := rfl

/-- Writing into the named cache updates exactly that cache with a put. -/
theorem lookup_putIn_self (s : CacheStore) (nm k : String) (v : StoredValue) :
    List.lookup nm (CacheStore.putIn s nm k v) =
      (List.lookup nm s).map (fun c => Cache.put c k v) := by
  induction s with
  | nil => rfl
  | cons g t ih =>
    obtain ⟨n, c⟩ := g
    by_cases h : n = nm
    · subst h
      rw [putIn_cons, if_pos rfl, lookup_cons, lookup_cons]
      simp [beq_self_eq_true]
    · have hb' : (nm == n) = false := beq_eq_false_iff_ne.mpr (Ne.symm h)
      rw [putIn_cons, if_neg h, lookup_cons, lookup_cons, hb']
      simp [ih]

/-- Writing into one named cache leaves every other name untouched. -/
theorem lookup_putIn_other (s : CacheStore) (nm nm' k : String) (v : StoredValue)
    (h : nm' ≠ nm) :
    List.lookup nm' (CacheStore.putIn s nm k v) = List.lookup nm' s := by
  induction s with
  | nil => rfl
  | cons g t ih =>
    obtain ⟨n, c⟩ := g
    by_cases hn : n = nm
    · subst hn
      have hb : (nm' == n) = false := beq_eq_false_iff_ne.mpr h
      rw [putIn_cons, if_pos rfl, lookup_cons, lookup_cons, hb]
      simp [ih]
    · rw [putIn_cons, if_neg hn, lookup_cons, lookup_cons]
      cases hak : nm' == n with
      | true => simp
      | false => simp [ih]

/-- findCache after putIn at a present name is a put on the old cache. -/
theorem findCache_putIn_self (s : CacheStore) (nm k : String) (v : StoredValue)
    (h : (List.lookup nm s).isSome) :
    CacheStore.findCache (CacheStore.putIn s nm k v) nm =
      Cache.put (CacheStore.findCache s nm) k v := by
  obtain ⟨c, hc⟩ := Option.isSome_iff_exists.mp h
  simp [CacheStore.findCache, lookup_putIn_self, hc]

/-- Lookup on the put key returns the new value. -/
theorem find_put_self (c : Cache) (k : String) (v : StoredValue) :
    Cache.find (Cache.put c k v) k = some v := by
  simp [Cache.find, Cache.put, List.lookup]

/-- Filtering away the entries of one key does not change other lookups. -/
theorem lookup_filter_ne (c : Cache) (k k' : String) (h : k' ≠ k) :
    List.lookup k' (c.filter (fun p => p.1 != k)) = List.lookup k' c := by
  induction c with
  | nil => rfl
  | cons p t ih =>
    obtain ⟨k₀, v₀⟩ := p
    by_cases h₀ : k₀ = k
    · subst h₀
      have hb : (k' == k₀) = false := by simpa using h
      simp [List.lookup, hb, ih]
    · have hb : (k₀ != k) = true := by simpa using h₀
      cases hak : k' == k₀ with
      | true => simp [List.filter_cons, hb, List.lookup, hak]
      | false => simp [List.filter_cons, hb, List.lookup, hak, ih]

/-- Lookup on a different key is unchanged by a put. -/
theorem find_put_other (c : Cache) (k k' : String) (v : StoredValue) (h : k' ≠ k) :
    Cache.find (Cache.put c k v) k' = Cache.find c k' := by
  have hb : (k' == k) = false := by simpa using h
  simp [Cache.find, Cache.put, List.lookup, hb, lookup_filter_ne c k k' h]

/-- Claim C5: the activate sweep deletes exactly the generations whose name
is neither the current SHELL name nor the current DATA name; a name survives
the sweep exactly when it was present and equals one of the two current
names, so the current SHELL and DATA generations are never deleted whatever
extra stale names are present. -/
theorem sw_c5_sweep_exact (s : CacheStore) (n : String) :
    n ∈ cacheNames (activateSweep s) ↔
      n ∈ cacheNames s ∧ (n = CACHE_NAME ∨ n = DATA_CACHE_NAME) := by
  simp only [cacheNames, activateSweep, List.mem_map, List.mem_filter,
    Bool.or_eq_true, beq_iff_eq]
  constructor
  · rintro ⟨g, ⟨hg, hname⟩, rfl⟩
    exact ⟨⟨g, hg, rfl⟩, hname⟩
  · rintro ⟨⟨g, hg, rfl⟩, hname⟩
    exact ⟨g, ⟨hg, hname⟩, rfl⟩

/-- Claim C6: running the activate sweep twice in succession with no install
in between leaves the set of retained generation names unchanged relative to
the first run. -/
theorem sw_c6_sweep_idempotent (s : CacheStore) :
    cacheNames (activateSweep (activateSweep s)) = cacheNames (activateSweep s) := by
  have h : activateSweep (activateSweep s) = activateSweep s := by
    simp [activateSweep, List.filter_filter]
  rw [h]

/-- Intercepted request: target URL and request mode (the string navigate
marks a top level navigation). -/
structure Request where
  url : String
  mode : String
  deriving DecidableEq

/-- JS String.prototype.includes, on character lists. -/
def containsSeq (needle : List Char) : List Char → Bool
  | [] => needle.isEmpty
  | c :: rest => needle.isPrefixOf (c :: rest) || containsSeq needle rest

/-- JS s.includes(pat). -/
def jsIncludes (s pat : String) : Bool :=
  containsSeq pat.toList s.toList

/-- Request classification (src/sw.js line 57): a request whose URL contains
the reserved data path segment /api/ is in the DATA category, everything
else is SHELL. -/
def isDataRequest (r : Request) : Bool :=
  jsIncludes r.url "/api/"

/-- Lookup of one key in the current DATA generation; models cache.match on
the cache opened under DATA_CACHE_NAME. -/
def dataEntry (s : CacheStore) (k : String) : Option StoredValue :=
  Cache.find (CacheStore.findCache s DATA_CACHE_NAME) k

/-- Opening the DATA cache changes no DATA lookup. -/
theorem dataEntry_openCache (s : CacheStore) (k : String) :
    dataEntry (CacheStore.openCache s DATA_CACHE_NAME) k = dataEntry s k := by
  simp [dataEntry, findCache_openCache]

/-- Result handed to respondWith by the fetch listener: the answer (none is
the absence signal), the cache store afterwards, and how many times fetch
was invoked while producing it. -/
structure FetchOutcome where
  response : Option StoredValue
  store : CacheStore
  networkCalls : Nat
  deriving DecidableEq

/-- Fetch listener (src/sw.js lines 55 to 89). DATA category: network first;
a response with status 200 is copied into the DATA generation under the
request URL before the live response is returned, any other resolved
response is returned uncached, and a rejected fetch falls back to the DATA
generation lookup of the same key. SHELL category: caches.match first; on a
miss the network is tried, and when that fetch rejects the cached
/index.html is substituted for navigations while other requests get the
absence signal. -/
def handleFetch (network : String → Option Response) (store : CacheStore)
    (req : Request) : FetchOutcome :=
  if isDataRequest req then
    match network req.url with
    | some resp =>
      if resp.status == 200 then
        { response := some (.resp resp)
          store := CacheStore.putIn (CacheStore.openCache store DATA_CACHE_NAME)
            DATA_CACHE_NAME req.url (.resp resp)
          networkCalls := 1 }
      else
        { response := some (.resp resp)
          store := CacheStore.openCache store DATA_CACHE_NAME
          networkCalls := 1 }
    | none =>
      { response := dataEntry (CacheStore.openCache store DATA_CACHE_NAME) req.url
        store := CacheStore.openCache store DATA_CACHE_NAME
        networkCalls := 1 }
  else
    match cachesMatch store req.url with
    | some v => { response := some v, store := store, networkCalls := 0 }
    | none =>
      match network req.url with
      | some resp =>
        { response := some (.resp resp), store := store, networkCalls := 1 }
      | none =>
        if req.mode == "navigate" then
          { response := cachesMatch store "/index.html", store := store, networkCalls := 1 }
        else
          { response := none, store := store, networkCalls := 1 }

/-- Some cache of the store holds the value under the key. -/
def storeHasEntry (s : CacheStore) (k : String) (v : StoredValue) : Prop :=
  ∃ nm c, (nm, c) ∈ s ∧ Cache.find c k = some v

/-- caches.match hits as soon as any member cache holds the key, and the hit
is itself a stored entry for that key. -/
theorem cachesMatch_of_entry (s : CacheStore) (nm : String) (c : Cache) (k : String)
    (v : StoredValue) (hm : (nm, c) ∈ s) (hf : Cache.find c k = some v) :
    ∃ w, cachesMatch s k = some w ∧ storeHasEntry s k w := by
  induction s with
  | nil => cases hm
  | cons g t ih =>
    obtain ⟨n₀, c₀⟩ := g
    cases hf₀ : Cache.find c₀ k with
    | some w =>
      refine ⟨w, ?_, n₀, c₀, List.mem_cons_self _ _, hf₀⟩
      simp [cachesMatch, hf₀]
    | none =>
      rcases List.mem_cons.mp hm with hhead | htail
      · exfalso
        injection hhead with hn hc
        subst hn
        subst hc
        rw [hf₀] at hf
        cases hf
      · obtain ⟨w, hcm, n', c', hmem, hf'⟩ := ih htail
        refine ⟨w, ?_, n', c', List.mem_cons_of_mem _ hmem, hf'⟩
        simp [cachesMatch, hf₀, hcm]

/-- Claim C1: for a DATA category request whose network fetch resolves with
the status the router treats as success (exactly 200, see C10), the live
response is returned to the caller and a copy is stored into the DATA
generation under the full request URL, so a subsequent lookup of that
identity in the DATA generation returns the stored copy. -/
theorem sw_c1_data_store_roundtrip (network : String → Option Response)
    (store : CacheStore) (req : Request) (resp : Response)
    (hcat : isDataRequest req = true)
    (hnet : network req.url = some resp)
    (hok : resp.status = 200) :
    (handleFetch network store req).response = some (.resp resp) ∧
    dataEntry (handleFetch network store req).store req.url = some (.resp resp) := by
  have hbeq : (resp.status == 200) = true := by simp [hok]
  have houtcome : handleFetch network store req =
      { response := some (.resp resp)
        store := CacheStore.putIn (CacheStore.openCache store DATA_CACHE_NAME)
          DATA_CACHE_NAME req.url (.resp resp)
        networkCalls := 1 } := by
    simp [handleFetch, hcat, hnet, hbeq]
  have hs1 : (List.lookup DATA_CACHE_NAME
      (CacheStore.openCache store DATA_CACHE_NAME)).isSome := by
    rw [lookup_openCache_self]; rfl
  rw [houtcome]
  refine ⟨rfl, ?_⟩
  rw [dataEntry, findCache_putIn_self _ _ _ _ hs1, find_put_self]

/-- Concrete run of claim C1 on a DATA request with a fresh 200 response. -/
def apiReq : Request := { url := "/api/t", mode := "cors" }

/-- Fresh network response used by the C1 run. -/
def liveResp : Response := { status := 200, body := "fresh" }

/-- Network that answers the API URL and rejects everything else. -/
def apiNetwork : String → Option Response :=
  fun u => if u = "/api/t" then some liveResp else none

theorem sw_c1_witness :
    isDataRequest apiReq = true ∧ apiNetwork apiReq.url = some liveResp ∧
      liveResp.status = 200 ∧
      ((handleFetch apiNetwork [] apiReq).response = some (.resp liveResp) ∧
        dataEntry (handleFetch apiNetwork [] apiReq).store apiReq.url =
          some (.resp liveResp)) :=
  ⟨by decide, by decide, rfl,
    sw_c1_data_store_roundtrip apiNetwork [] apiReq liveResp (by decide) (by decide) rfl⟩

/-- Claim C2: for a DATA category request whose network fetch rejects, the
router answers with the DATA generation entry stored under the same request
URL: the cached snapshot when one is present and the absence signal when
not, never an entry of a different identity. -/
theorem sw_c2_data_failure_fallback (network : String → Option Response)
    (store : CacheStore) (req : Request)
    (hcat : isDataRequest req = true)
    (hnet : network req.url = none) :
    (handleFetch network store req).response = dataEntry store req.url := by
  have houtcome : handleFetch network store req =
      { response := dataEntry (CacheStore.openCache store DATA_CACHE_NAME) req.url
        store := CacheStore.openCache store DATA_CACHE_NAME
        networkCalls := 1 } := by
    simp [handleFetch, hcat, hnet]
  rw [houtcome, dataEntry_openCache]

/-- Cached snapshot present under the API key for the C2 run. -/
def staleResp : Response := { status := 200, body := "stale" }

/-- Store holding one DATA entry under the API key. -/
def storeWithApiEntry : CacheStore := [(DATA_CACHE_NAME, [("/api/t", .resp staleResp)])]

/-- Network that rejects every fetch. -/
def downNetwork : String → Option Response := fun _ => none

theorem sw_c2_witness :
    isDataRequest apiReq = true ∧ downNetwork apiReq.url = none ∧
      (handleFetch downNetwork storeWithApiEntry apiReq).response =
        dataEntry storeWithApiEntry apiReq.url :=
  ⟨by decide, rfl,
    sw_c2_data_failure_fallback downNetwork storeWithApiEntry apiReq (by decide) rfl⟩

/-- Claim C3: for a SHELL category request with an entry stored in the SHELL
generation, the router answers from cache and the network is never invoked:
the fetch counter stays at zero and the answer is a value stored for that
request identity. -/
theorem sw_c3_shell_cache_wins (network : String → Option Response)
    (store : CacheStore) (req : Request) (v : StoredValue)
    (hcat : isDataRequest req = false)
    (hshell : Cache.find (CacheStore.findCache store CACHE_NAME) req.url = some v) :
    (handleFetch network store req).networkCalls = 0 ∧
    ∃ w, (handleFetch network store req).response = some w ∧
      storeHasEntry store req.url w := by
  have hc : ∃ c, List.lookup CACHE_NAME store = some c ∧ Cache.find c req.url = some v := by
    cases hl : List.lookup CACHE_NAME store with
    | some c => exact ⟨c, rfl, by simpa [CacheStore.findCache, hl] using hshell⟩
    | none =>
      exfalso
      simp [CacheStore.findCache, hl, Cache.find, List.lookup] at hshell
  obtain ⟨c, hl, hf⟩ := hc
  obtain ⟨w, hcm, hse⟩ :=
    cachesMatch_of_entry store CACHE_NAME c req.url v (mem_of_lookup_eq_some hl) hf
  have houtcome : handleFetch network store req =
      { response := some w, store := store, networkCalls := 0 } := by
    simp [handleFetch, hcat, hcm]
  rw [houtcome]
  exact ⟨rfl, w, rfl, hse⟩

/-- Shell request and store used by the C3 run. -/
def shellReq : Request := { url := "/index.html", mode := "no-cors" }

/-- Cached shell document for the concrete runs. -/
def shellResp : Response := { status := 200, body := "shell" }

/-- Store holding the SHELL generation with the cached root document. -/
def storeWithShell : CacheStore := [(CACHE_NAME, [("/index.html", .resp shellResp)])]

theorem sw_c3_witness :
    isDataRequest shellReq = false ∧
      Cache.find (CacheStore.findCache storeWithShell CACHE_NAME) shellReq.url =
        some (.resp shellResp) ∧
      ((handleFetch downNetwork storeWithShell shellReq).networkCalls = 0 ∧
        ∃ w, (handleFetch downNetwork storeWithShell shellReq).response = some w ∧
          storeHasEntry storeWithShell shellReq.url w) :=
  ⟨by decide, by decide,
    sw_c3_shell_cache_wins downNetwork storeWithShell shellReq (.resp shellResp)
      (by decide) (by decide)⟩

/-- Claim C4: for a SHELL category request with no stored entry whose network
fetch rejects, a top level navigation is answered with the cached root
document looked up under /index.html, and a non navigation request gets the
absence signal. -/
theorem sw_c4_navigation_fallback (network : String → Option Response)
    (store : CacheStore) (req : Request)
    (hcat : isDataRequest req = false)
    (hmiss : cachesMatch store req.url = none)
    (hnet : network req.url = none) :
    (req.mode = "navigate" →
      (handleFetch network store req).response = cachesMatch store "/index.html") ∧
    (req.mode ≠ "navigate" → (handleFetch network store req).response = none) := by
  constructor
  · intro hnav
    have hb : (req.mode == "navigate") = true := by simp [hnav]
    simp [handleFetch, hcat, hmiss, hnet, hb]
  · intro hnav
    have hb : (req.mode == "navigate") = false := beq_eq_false_iff_ne.mpr hnav
    simp [handleFetch, hcat, hmiss, hnet, hb]

/-- Navigation request that misses the cache, for the C4 run. -/
def navReq : Request := { url := "/deep/route", mode := "navigate" }

theorem sw_c4_witness :
    isDataRequest navReq = false ∧ cachesMatch storeWithShell navReq.url = none ∧
      downNetwork navReq.url = none ∧
      ((navReq.mode = "navigate" →
        (handleFetch downNetwork storeWithShell navReq).response =
          cachesMatch storeWithShell "/index.html") ∧
       (navReq.mode ≠ "navigate" →
        (handleFetch downNetwork storeWithShell navReq).response = none)) :=
  ⟨by decide, by decide, rfl,
    sw_c4_navigation_fallback downNetwork storeWithShell navReq (by decide) (by decide) rfl⟩

/-- Claim C10: in the DATA path a resolved network response is written to the
DATA generation only when its status is exactly 200; for any other status,
including other success statuses such as 201 or 204, the response is
returned to the caller while the store at most gains a missing empty DATA
cache, so the DATA entry for the request key is unchanged. -/
theorem sw_c10_only_200_cached (network : String → Option Response)
    (store : CacheStore) (req : Request) (resp : Response)
    (hcat : isDataRequest req = true)
    (hnet : network req.url = some resp)
    (hst : resp.status ≠ 200) :
    (handleFetch network store req).response = some (.resp resp) ∧
    (handleFetch network store req).store = CacheStore.openCache store DATA_CACHE_NAME ∧
    dataEntry (handleFetch network store req).store req.url = dataEntry store req.url := by
  have hbeq : (resp.status == 200) = false := beq_eq_false_iff_ne.mpr hst
  have houtcome : handleFetch network store req =
      { response := some (.resp resp)
        store := CacheStore.openCache store DATA_CACHE_NAME
        networkCalls := 1 } := by
    simp [handleFetch, hcat, hnet, hbeq]
  rw [houtcome]
  exact ⟨rfl, rfl, dataEntry_openCache store req.url⟩

/-- Response with success status 201 used by the C10 run. -/
def resp201 : Response := { status := 201, body := "created" }

/-- Network that answers the API URL with status 201. -/
def network201 : String → Option Response :=
  fun u => if u = "/api/t" then some resp201 else none

theorem sw_c10_witness :
    isDataRequest apiReq = true ∧ network201 apiReq.url = some resp201 ∧
      resp201.status ≠ 200 ∧
      ((handleFetch network201 [] apiReq).response = some (.resp resp201) ∧
        (handleFetch network201 [] apiReq).store =
          CacheStore.openCache [] DATA_CACHE_NAME ∧
        dataEntry (handleFetch network201 [] apiReq).store apiReq.url =
          dataEntry [] apiReq.url) :=
  ⟨by decide, by decide, by decide,
    sw_c10_only_200_cached network201 [] apiReq resp201 (by decide) (by decide) (by decide)⟩

/-- Fetch phase of cache.addAll over the asset list: every path is fetched,
and the whole operation fails when any fetch rejects. -/
def addAllFetch (network : String → Option Response) :
    List String → Option (List (String × StoredValue))
  | [] => some []
  | k :: rest =>
    match network k with
    | none => none
    | some r => (addAllFetch network rest).map (fun es => (k, .resp r) :: es)

/-- Store phase of cache.addAll: the fetched entries are written in order
into the named cache. -/
def putAllIn (nm : String) : CacheStore → List (String × StoredValue) → CacheStore
  | s, [] => s
  | s, (k, v) :: rest => putAllIn nm (CacheStore.putIn s nm k v) rest

/-- Install listener (src/sw.js lines 17 to 31): opens the SHELL generation
named by the build version constant (CACHE_NAME; a parameter here so that
successive build versions can be modelled), populates it with FILES_TO_CACHE
through the all or nothing addAll, and only on success reaches skipWaiting;
the Bool of the result records whether skipWaiting was called. -/
def installEvent (shellName : String) (network : String → Option Response)
    (store : CacheStore) : CacheStore × Bool :=
  match addAllFetch network FILES_TO_CACHE with
  | none => (CacheStore.openCache store shellName, false)
  | some entries =>
    (putAllIn shellName (CacheStore.openCache store shellName) entries, true)

/-- addAll fails whenever one of the asset fetches rejects. -/
theorem addAllFetch_eq_none (network : String → Option Response) (ks : List String)
    (a : String) (ha : a ∈ ks) (hna : network a = none) :
    addAllFetch network ks = none := by
  induction ks with
  | nil => cases ha
  | cons k rest ih =>
    rcases List.mem_cons.mp ha with rfl | htail
    · simp [addAllFetch, hna]
    · cases hk : network k with
      | none => simp [addAllFetch, hk]
      | some r => simp [addAllFetch, hk, ih htail]

/-- addAll succeeds when every asset fetch resolves. -/
theorem addAllFetch_isSome (network : String → Option Response) (ks : List String)
    (h : ∀ a ∈ ks, (network a).isSome) :
    ∃ entries, addAllFetch network ks = some entries := by
  induction ks with
  | nil => exact ⟨[], rfl⟩
  | cons k rest ih =>
    obtain ⟨r, hr⟩ := Option.isSome_iff_exists.mp (h k (List.mem_cons_self _ _))
    obtain ⟨es, hes⟩ := ih (fun a ha => h a (List.mem_cons_of_mem _ ha))
    exact ⟨(k, .resp r) :: es, by simp [addAllFetch, hr, hes]⟩

/-- Every entry produced by addAll carries the response the network gave for
its own key. -/
theorem addAllFetch_sound (network : String → Option Response) (ks : List String)
    (entries : List (String × StoredValue)) (he : addAllFetch network ks = some entries) :
    ∀ p ∈ entries, ∃ r, network p.1 = some r ∧ p.2 = StoredValue.resp r := by
  induction ks generalizing entries with
  | nil =>
    obtain rfl : ([] : List (String × StoredValue)) = entries := by
      simpa [addAllFetch] using he
    intro p hp
    cases hp
  | cons k rest ih =>
    cases hk : network k with
    | none => simp [addAllFetch, hk] at he
    | some r =>
      simp only [addAllFetch, hk, Option.map_eq_some'] at he
      obtain ⟨es, hes, rfl⟩ := he
      intro p hp
      rcases List.mem_cons.mp hp with rfl | htail
      · exact ⟨r, hk, rfl⟩
      · exact ih es hes p htail

/-- Every asset key appears among the entries produced by addAll. -/
theorem addAllFetch_keys (network : String → Option Response) (ks : List String)
    (entries : List (String × StoredValue)) (he : addAllFetch network ks = some entries) :
    ∀ a ∈ ks, ∃ p ∈ entries, p.1 = a := by
  induction ks generalizing entries with
  | nil => intro a ha; cases ha
  | cons k rest ih =>
    cases hk : network k with
    | none => simp [addAllFetch, hk] at he
    | some r =>
      simp only [addAllFetch, hk, Option.map_eq_some'] at he
      obtain ⟨es, hes, rfl⟩ := he
      intro a ha
      rcases List.mem_cons.mp ha with rfl | htail
      · exact ⟨(a, .resp r), List.mem_cons_self _ _, rfl⟩
      · obtain ⟨p, hp, hpk⟩ := ih es hes a htail
        exact ⟨p, List.mem_cons_of_mem _ hp, hpk⟩

/-- putAllIn keeps the named cache present. -/
theorem lookup_putAllIn_isSome (nm : String) (s : CacheStore)
    (entries : List (String × StoredValue)) (h : (List.lookup nm s).isSome) :
    (List.lookup nm (putAllIn nm s entries)).isSome := by
  induction entries generalizing s with
  | nil => exact h
  | cons p rest ih =>
    obtain ⟨k, v⟩ := p
    exact ih _ (by rw [lookup_putIn_self]; simpa using h)

/-- putAllIn leaves a key alone when no entry writes it. -/
theorem find_putAllIn_not_mem (nm : String) (s : CacheStore)
    (entries : List (String × StoredValue)) (k : String)
    (hk : ∀ p ∈ entries, p.1 ≠ k) (hnm : (List.lookup nm s).isSome) :
    Cache.find (CacheStore.findCache (putAllIn nm s entries) nm) k =
      Cache.find (CacheStore.findCache s nm) k := by
  induction entries generalizing s with
  | nil => rfl
  | cons p rest ih =>
    obtain ⟨k₀, v₀⟩ := p
    have hstep := ih (CacheStore.putIn s nm k₀ v₀)
      (fun q hq => hk q (List.mem_cons_of_mem _ hq))
      (by rw [lookup_putIn_self]; simpa using hnm)
    rw [putAllIn, hstep, findCache_putIn_self _ _ _ _ hnm,
      find_put_other _ _ _ _ (Ne.symm (hk (k₀, v₀) (List.mem_cons_self _ _)))]

/-- putAllIn writes the common value of all entries of a key that occurs. -/
theorem find_putAllIn_uniform (nm : String) (s : CacheStore)
    (entries : List (String × StoredValue)) (k : String) (v : StoredValue)
    (hnm : (List.lookup nm s).isSome)
    (hmem : ∃ p ∈ entries, p.1 = k)
    (huni : ∀ p ∈ entries, p.1 = k → p.2 = v) :
    Cache.find (CacheStore.findCache (putAllIn nm s entries) nm) k = some v := by
  induction entries generalizing s with
  | nil =>
    obtain ⟨p, hp, _⟩ := hmem
    cases hp
  | cons p rest ih =>
    obtain ⟨k₀, v₀⟩ := p
    have hnm' : (List.lookup nm (CacheStore.putIn s nm k₀ v₀)).isSome := by
      rw [lookup_putIn_self]; simpa using hnm
    by_cases hrest : ∃ q ∈ rest, q.1 = k
    · exact ih (CacheStore.putIn s nm k₀ v₀) hnm' hrest
        (fun q hq => huni q (List.mem_cons_of_mem _ hq))
    · have hk₀ : k₀ = k := by
        obtain ⟨q, hq, hqk⟩ := hmem
        rcases List.mem_cons.mp hq with rfl | htail
        · exact hqk
        · exact absurd ⟨q, htail, hqk⟩ hrest
      subst hk₀
      have hv₀ : v₀ = v := huni (k₀, v₀) (List.mem_cons_self _ _) rfl
      subst hv₀
      rw [putAllIn, find_putAllIn_not_mem nm _ rest k₀
        (fun q hq hqk => hrest ⟨q, hq, hqk⟩) hnm',
        findCache_putIn_self _ _ _ _ hnm, find_put_self]

/-- Claim C7: install is all or nothing over the fixed shell asset list. If
any asset fetch rejects the whole attempt fails: skipWaiting is not reached,
the store keeps every previously existing generation untouched (at most a
missing empty shell cache is created), so a previously current generation
keeps serving its entries. Only when every asset resolves does the install
complete with skipWaiting, and then the shell generation holds an entry for
every asset equal to the response the network gave for it. -/
theorem sw_c7_install_all_or_nothing (shellName : String)
    (network : String → Option Response) (store : CacheStore) :
    ((∃ a ∈ FILES_TO_CACHE, network a = none) →
      installEvent shellName network store = (CacheStore.openCache store shellName, false) ∧
      ∀ nm, nm ≠ shellName →
        List.lookup nm (installEvent shellName network store).1 = List.lookup nm store)
    ∧ ((∀ a ∈ FILES_TO_CACHE, (network a).isSome) →
      (installEvent shellName network store).2 = true ∧
      ∀ a ∈ FILES_TO_CACHE, ∃ r, network a = some r ∧
        Cache.find (CacheStore.findCache (installEvent shellName network store).1 shellName) a =
          some (.resp r)) := by
  constructor
  · rintro ⟨a, ha, hna⟩
    have hnone : addAllFetch network FILES_TO_CACHE = none :=
      addAllFetch_eq_none network FILES_TO_CACHE a ha hna
    have hfail : installEvent shellName network store =
        (CacheStore.openCache store shellName, false) := by
      simp [installEvent, hnone]
    refine ⟨hfail, fun nm hnm => ?_⟩
    rw [hfail]
    exact lookup_openCache_other store shellName nm hnm
  · intro hall
    obtain ⟨entries, he⟩ := addAllFetch_isSome network FILES_TO_CACHE hall
    have hinst : installEvent shellName network store =
        (putAllIn shellName (CacheStore.openCache store shellName) entries, true) := by
      simp [installEvent, he]
    refine ⟨by rw [hinst], fun a ha => ?_⟩
    obtain ⟨r, hr⟩ := Option.isSome_iff_exists.mp (hall a ha)
    refine ⟨r, hr, ?_⟩
    rw [hinst]
    apply find_putAllIn_uniform
    · rw [lookup_openCache_self]; rfl
    · exact addAllFetch_keys network FILES_TO_CACHE entries he a ha
    · intro p hp hpk
      obtain ⟨r', hr', hv⟩ := addAllFetch_sound network FILES_TO_CACHE entries he p hp
      rw [hpk, hr] at hr'
      injection hr' with hrr
      rw [hv, hrr]

/-- Network used by the C7 run: the favicon asset fetch rejects. -/
def badNetwork : String → Option Response :=
  fun u => if u = "/favicon.ico" then none else some { status := 200, body := "ok" }

theorem sw_c7_witness :
    (∃ a ∈ FILES_TO_CACHE, badNetwork a = none) ∧
      installEvent "taskflow-v2.0.0" badNetwork storeWithShell =
        (CacheStore.openCache storeWithShell "taskflow-v2.0.0", false) ∧
      List.lookup CACHE_NAME (installEvent "taskflow-v2.0.0" badNetwork storeWithShell).1 =
        List.lookup CACHE_NAME storeWithShell :=
  ⟨by decide,
    ((sw_c7_install_all_or_nothing "taskflow-v2.0.0" badNetwork storeWithShell).1
      (by decide)).1,
    ((sw_c7_install_all_or_nothing "taskflow-v2.0.0" badNetwork storeWithShell).1
      (by decide)).2 CACHE_NAME (by decide)⟩

/-- Milliseconds in one day (src/sw.js line 216). -/
def msPerDay : Int := 1000 * 60 * 60 * 24

/-- JS Math.ceil of the division a / b, for positive b. -/
def jsCeilDiv (a b : Int) : Int := -(Int.fdiv (-a) b)

/-- Day difference of checkTaskReminders (lines 214 to 216): the millisecond
difference between the due instant and now, divided by one day rounding up. -/
def jsDaysDiff (dueMs nowMs : Int) : Int := jsCeilDiv (dueMs - nowMs) msPerDay

/-- Payload passed to showNotification at lines 220 to 225. -/
structure Reminder where
  title : String
  body : String
  icon : String
  tag : String
  requireInteraction : Bool
  deriving DecidableEq

/-- Reminder shown for a task with the given day difference. -/
def reminderFor (t : Task) (daysDiff : Int) : Reminder :=
  { title := "TaskFlow - Task Due!"
    body := "\"" ++ t.text ++ "\" is " ++ (if daysDiff = 0 then "due today" else "overdue")
    icon := "/favicon.ico"
    tag := "task-" ++ toString t.id
    requireInteraction := true }

/-- Decision for one task (lines 213 to 227): a non null due date whose day
difference is at most zero on a task not completed raises the reminder. -/
def taskReminder (nowMs : Int) (t : Task) : Option Reminder :=
  match t.dueDate with
  | none => none
  | some d =>
    if jsDaysDiff d nowMs ≤ 0 ∧ t.completed = false then
      some (reminderFor t (jsDaysDiff d nowMs))
    else none

/-- Periodic reminder pass (lines 202 to 233): reads the snapshot cached
under /tasks-data in the DATA generation (a silent no op when absent),
flattens the task groups in order and collects the reminders raised. -/
def checkTaskReminders (nowMs : Int) (store : CacheStore) : List Reminder :=
  match dataEntry (CacheStore.openCache store DATA_CACHE_NAME) "/tasks-data" with
  | some (.tasks groups) => ((groups.map Prod.snd).flatten).filterMap (taskReminder nowMs)
  | _ => []

/-- Message received from a client (src/sw.js lines 181 to 192). -/
inductive ClientMessage where
  | skipWaiting
  | cacheTaskData (groups : List (String × List Task))
  | other

/-- Message listener: SKIP_WAITING calls skipWaiting (the Bool of the
result), and CACHE_TASK_DATA overwrites the snapshot stored under
/tasks-data in the DATA generation. -/
def handleMessage (store : CacheStore) (m : ClientMessage) : CacheStore × Bool :=
  match m with
  | .skipWaiting => (store, true)
  | .cacheTaskData groups =>
    (CacheStore.putIn (CacheStore.openCache store DATA_CACHE_NAME)
      DATA_CACHE_NAME "/tasks-data" (.tasks groups), false)
  | .other => (store, false)

/-- Unix milliseconds of 2024-01-01T00:00 UTC. -/
def jan1ms : Int := 1704067200000

/-- Instant the given days, hours and minutes after 2024-01-01T00:00 UTC. -/
def msAt (days hours minutes : Int) : Int :=
  jan1ms + days * msPerDay + hours * 3600000 + minutes * 60000

/-- Task of the first C8 scenario: due at 2024-01-10T23:59. -/
def dueLaterTask : Task :=
  { id := 1, text := "x", dueDate := some (msAt 9 23 59), completed := false }

/-- Task of the second C8 scenario: due at 2024-01-09. -/
def overdueTask : Task :=
  { id := 2, text := "x", dueDate := some (msAt 8 0 0), completed := false }

/-- Task of the third C8 scenario: due at 2024-01-12. -/
def futureTask : Task :=
  { id := 3, text := "x", dueDate := some (msAt 11 0 0), completed := false }

/-- Claim C8 counterexample: with now 2024-01-10T00:00 and dueDate
2024-01-10T23:59 the day difference the code computes is 1, not the claimed
0, because the positive partial day of 23 hours 59 minutes is rounded up to
one whole day remaining, so no notification is raised and the task is not
classified due today. -/
theorem sw_c8_counterexample :
    jsDaysDiff (msAt 9 23 59) (msAt 9 0 0) = 1 ∧
    taskReminder (msAt 9 0 0) dueLaterTask = none := by
  constructor
  · decide
  · decide

/-- Claim C8 amended: the periodic pass computes the day difference as the
millisecond difference between due date and now divided by one day rounding
up, and raises a reminder exactly for the non completed tasks with non null
due date whose difference is at most zero, worded due today at zero and
overdue below; on the concrete inputs, now 2024-01-10T00:00 with dueDate
2024-01-10T23:59 gives daysDiff 1 and no notification, dueDate 2024-01-09
gives daysDiff -1, negative, classified overdue, and dueDate 2024-01-12
gives daysDiff 2 and no notification. -/
theorem sw_c8_amended :
    (∀ (nowMs : Int) (store : CacheStore) (groups : List (String × List Task)) (n : Reminder),
      dataEntry (CacheStore.openCache store DATA_CACHE_NAME) "/tasks-data" =
        some (.tasks groups) →
      (n ∈ checkTaskReminders nowMs store ↔
        ∃ t ∈ (groups.map Prod.snd).flatten, ∃ d, t.dueDate = some d ∧
          jsDaysDiff d nowMs ≤ 0 ∧ t.completed = false ∧
          n = reminderFor t (jsDaysDiff d nowMs)))
    ∧ jsDaysDiff (msAt 9 23 59) (msAt 9 0 0) = 1
    ∧ taskReminder (msAt 9 0 0) dueLaterTask = none
    ∧ jsDaysDiff (msAt 8 0 0) (msAt 9 0 0) = -1
    ∧ taskReminder (msAt 9 0 0) overdueTask = some (reminderFor overdueTask (-1))
    ∧ (reminderFor overdueTask (-1)).body = "\"x\" is overdue"
    ∧ jsDaysDiff (msAt 11 0 0) (msAt 9 0 0) = 2
    ∧ taskReminder (msAt 9 0 0) futureTask = none := by
  refine ⟨?_, by decide, by decide, by decide, by decide, by decide, by decide, by decide⟩
  intro nowMs store groups n h
  simp only [checkTaskReminders, h]
  rw [List.mem_filterMap]
  constructor
  · rintro ⟨t, ht, htr⟩
    cases hd : t.dueDate with
    | none => simp [taskReminder, hd] at htr
    | some d =>
      simp only [taskReminder, hd] at htr
      by_cases hp : jsDaysDiff d nowMs ≤ 0 ∧ t.completed = false
      · rw [if_pos hp] at htr
        injection htr with htr
        exact ⟨t, ht, d, hd, hp.1, hp.2, htr.symm⟩
      · rw [if_neg hp] at htr
        cases htr
  · rintro ⟨t, ht, d, hd, h1, h2, rfl⟩
    exact ⟨t, ht, by simp [taskReminder, hd, h1, h2]⟩

/-- Task groups cached for the C8 witness run. -/
def c8Groups : List (String × List Task) := [("all", [overdueTask])]

/-- Store holding the C8 witness snapshot under /tasks-data. -/
def c8Store : CacheStore := [(DATA_CACHE_NAME, [("/tasks-data", .tasks c8Groups)])]

theorem sw_c8_witness :
    dataEntry (CacheStore.openCache c8Store DATA_CACHE_NAME) "/tasks-data" =
      some (.tasks c8Groups) ∧
    (reminderFor overdueTask (-1) ∈ checkTaskReminders (msAt 9 0 0) c8Store ↔
      ∃ t ∈ (c8Groups.map Prod.snd).flatten, ∃ d, t.dueDate = some d ∧
        jsDaysDiff d (msAt 9 0 0) ≤ 0 ∧ t.completed = false ∧
        reminderFor overdueTask (-1) = reminderFor t (jsDaysDiff d (msAt 9 0 0))) :=
  ⟨by decide,
    sw_c8_amended.1 (msAt 9 0 0) c8Store c8Groups (reminderFor overdueTask (-1)) (by decide)⟩

/-- Task of the C9 end to end scenario: due 2024-01-01, not completed. -/
def demoTask : Task := { id := 1, text := "x", dueDate := some jan1ms, completed := false }

/-- Snapshot carried by the C9 CACHE_TASK_DATA message. -/
def demoSnapshot : List (String × List Task) := [("work", [demoTask])]

/-- Claim C9: a CACHE_TASK_DATA message overwrites the snapshot stored under
/tasks-data in the DATA generation wholesale, whatever was stored before
(single key overwrite, not merged), and a subsequent periodic trigger on
2024-01-05 against the snapshot work -> [task 1, text x, due 2024-01-01, not
completed] raises exactly one notification, whose deduplication tag is
task-1. -/
theorem sw_c9_snapshot_overwrite (store : CacheStore)
    (groups : List (String × List Task)) :
    dataEntry (handleMessage store (.cacheTaskData groups)).1 "/tasks-data" =
      some (.tasks groups) ∧
    (checkTaskReminders (msAt 4 0 0) (handleMessage store (.cacheTaskData demoSnapshot)).1).map
      (fun n => n.tag) = ["task-1"] := by
  have hkey : ∀ gs : List (String × List Task),
      dataEntry (handleMessage store (.cacheTaskData gs)).1 "/tasks-data" =
        some (.tasks gs) := by
    intro gs
    have hs1 : (List.lookup DATA_CACHE_NAME
        (CacheStore.openCache store DATA_CACHE_NAME)).isSome := by
      rw [lookup_openCache_self]; rfl
    show dataEntry (CacheStore.putIn (CacheStore.openCache store DATA_CACHE_NAME)
      DATA_CACHE_NAME "/tasks-data" (.tasks gs)) "/tasks-data" = _
    rw [dataEntry, findCache_putIn_self _ _ _ _ hs1, find_put_self]
  refine ⟨hkey groups, ?_⟩
  have h2 : dataEntry (CacheStore.openCache
      (handleMessage store (.cacheTaskData demoSnapshot)).1 DATA_CACHE_NAME)
      "/tasks-data" = some (.tasks demoSnapshot) := by
    rw [dataEntry_openCache]
    exact hkey demoSnapshot
  simp only [checkTaskReminders, h2]
  decide

end SW
